import Mathlib

/-!
Shallow embedding of the `WebpackResourceLoader` class
(`packages/ngtools/webpack` resource loader, found in
`src/packages/angular/cli/utilities/package-manager.ts` lines 84-339 of the
repository snapshot) together with proofs of the specification claims.

Modelling conventions:
* JavaScript `Map<string, V>` is modelled as an association list
  `List (String × V)` whose only observations are `findA` / `eraseA` /
  `insertA`; JavaScript `Set<string>` is modelled as a duplicate-free-by-use
  `List String` observed through membership (`insertS` adds an element).
* `normalizePath` comes from `./ivy/paths`, a module that is not part of the
  source snapshot; the spec (§4.1) only requires it to be a deterministic pure
  function, so every definition is parameterised by an arbitrary
  `norm : String → String`.
* The webpack child compilation is external to the loader; `_compile` takes
  the child compilation's outcome (`Except String ChildCompilation`) as an
  oracle argument.  The ghost counter `driverRuns` in the state is incremented
  exactly where `childCompiler.runAsChild` is called, so the theorems can
  observe whether the nested compilation driver was invoked.
* Rejected promises / thrown errors are modelled by `Except`, with the state
  at the moment of the failure carried in the error so that frame properties
  can be stated on failing paths as well.
-/

/-- Association-list lookup, the model of JavaScript `Map.prototype.get`. -/
def findA {α : Type} : List (String × α) → String → Option α
  | [], _ => none
  | (k, v) :: rest, key => if k = key then some v else findA rest key

/-- Association-list deletion, the model of JavaScript `Map.prototype.delete`. -/
def eraseA {α : Type} : List (String × α) → String → List (String × α)
  | [], _ => []
  | (k, v) :: rest, key =>
      if k = key then eraseA rest key else (k, v) :: eraseA rest key

/-- Association-list update, the model of JavaScript `Map.prototype.set`. -/
def insertA {α : Type} (l : List (String × α)) (k : String) (v : α) :
    List (String × α) :=
  (k, v) :: eraseA l k

/-- The model of JavaScript `Set.prototype.add`. -/
def insertS (s : List String) (x : String) : List String :=
  if x ∈ s then s else x :: s

/-- The model of the JavaScript constructor `new Set(iterable)`. -/
def mkSet (l : List String) : List String :=
  l.foldl insertS []

/-- The result record of a compilation: content, optional source map, and a
success flag. -/
structure CompilationOutput where
  content : String
  map : Option String
  success : Bool
deriving Repr, DecidableEq

/-- The data the loader reads from a finished webpack child compilation:
`childCompilation.fileDependencies`, `childCompilation.errors.length`, and the
`finalContent` / `finalMap` strings captured by the asset-processing hook. -/
structure ChildCompilation where
  fileDependencies : List String
  errorsLength : Nat
  finalContent : Option String
  finalMap : Option String
deriving Repr, DecidableEq

/-- The failure modes of `_compile` (rejected promises and thrown errors). -/
inductive CompileError where
  /-- `throw new Error('WebpackResourceLoader cannot be used without parentCompilation')`. -/
  | missingParentContext : CompileError
  /-- `Promise.reject` for a `.js` / `.ts` file path. -/
  | unsupportedResourceType : String → CompileError
  /-- `runAsChild` reported an error, or produced no child compilation. -/
  | childError : String → CompileError
deriving Repr, DecidableEq

/-- The mutable instance state of `class WebpackResourceLoader`.
`driverRuns` is a ghost counter with no counterpart in the source: it counts
invocations of `childCompiler.runAsChild`, so that "the nested compilation
driver was (not) invoked" becomes observable in the theorems. -/
structure WebpackResourceLoader where
  parentCompilation : Bool
  fileDependencies : List (String × List String)
  reverseDependencies : List (String × List String)
  cache : List (String × CompilationOutput)
  modifiedResources : List String
  outputPathCounter : Nat
  driverRuns : Nat
deriving Repr, DecidableEq

namespace WebpackResourceLoader

/-- Freshly constructed loader: empty maps, empty cache, counter 1. -/
def init : WebpackResourceLoader :=
  { parentCompilation := false
    fileDependencies := []
    reverseDependencies := []
    cache := []
    modifiedResources := []
    outputPathCounter := 1
    driverRuns := 0 }

/-- Source: `getModifiedResourceFiles()` returns `this.modifiedResources`. -/
def getModifiedResourceFiles (st : WebpackResourceLoader) : List String :=
  st.modifiedResources

/-- Source: `getResourceDependencies(filePath)` returns
`this._fileDependencies.get(filePath) || []`. -/
def getResourceDependencies (st : WebpackResourceLoader) (filePath : String) :
    List String :=
  (findA st.fileDependencies filePath).getD []

/-- Source: `getAffectedResources(file)` returns
`this._reverseDependencies.get(file) || []`. -/
def getAffectedResources (st : WebpackResourceLoader) (file : String) :
    List String :=
  (findA st.reverseDependencies file).getD []

/-- Source: `setAffectedResources(file, resources)`. -/
def setAffectedResources (st : WebpackResourceLoader) (file : String)
    (resources : List String) : WebpackResourceLoader :=
  { st with reverseDependencies := insertA st.reverseDependencies file (mkSet resources) }

/-- One step of the reverse-dependency loop inside the `runAsChild` callback:
resolve the file through `normalizePath`; if the reverse map has an entry for
it, add `filePath` to that set, otherwise bind the resolved file to the
singleton set of `filePath` (mutating a retrieved `Set` entry is modelled by
re-inserting the grown set). -/
def addReverseDependency (norm : String → String) (filePath : String)
    (rd : List (String × List String)) (file : String) :
    List (String × List String) :=
  let resolvedFile := norm file
  match findA rd resolvedFile with
  | some entry => insertA rd resolvedFile (insertS entry filePath)
  | none => insertA rd resolvedFile [filePath]

/-- The dependency-saving block of `_compile` (source lines 270-282):
`this._fileDependencies.set(filePath, new Set(childCompilation.fileDependencies))`
followed by the reverse-dependency loop. -/
def recordDependencies (norm : String → String) (st : WebpackResourceLoader)
    (filePath : String) (deps : List String) : WebpackResourceLoader :=
  { st with
      fileDependencies := insertA st.fileDependencies filePath (mkSet deps)
      reverseDependencies :=
        deps.foldl (addReverseDependency norm filePath) st.reverseDependencies }

/-- The body of the inner `for (const affectedResource of ...)` loop of `update`:
`this.cache.delete(normalizePath(affectedResource)); this.modifiedResources.add(affectedResource);` -/
def evictResource (norm : String → String) (st : WebpackResourceLoader)
    (affectedResource : String) : WebpackResourceLoader :=
  { st with
      cache := eraseA st.cache (norm affectedResource)
      modifiedResources := insertS st.modifiedResources affectedResource }

/-- The body of the outer `for (const changedFile of changedFiles)` loop of
`update`: iterate `evictResource` over `this.getAffectedResources(changedFile)`. -/
def processChangedFile (norm : String → String) (st : WebpackResourceLoader)
    (changedFile : String) : WebpackResourceLoader :=
  (st.getAffectedResources changedFile).foldl (evictResource norm) st

/-- Source: `update(parentCompilation, changedFiles?)`.  Binding the parent
compilation object is modelled by setting the `parentCompilation` flag. -/
def update (norm : String → String) (st : WebpackResourceLoader)
    (changedFiles : Option (List String)) : WebpackResourceLoader :=
  let st := { st with parentCompilation := true, modifiedResources := [] }
  match changedFiles with
  | some files => files.foldl (processChangedFile norm) st
  | none => { st with cache := [] }

/-- The test `filePath?.match(/\.[jt]s$/)` of `_compile`'s sanity check: the
path ends in `.js` or `.ts`. -/
def hasJsTsExtension (p : String) : Bool :=
  match p.data.reverse with
  | 's' :: 'j' :: '.' :: _ => true
  | 's' :: 't' :: '.' :: _ => true
  | _ => false

/-- Source: `private async _compile(filePath?, data?, mimeType?)`.  The webpack child
compilation is supplied as the oracle `child`; `data` and `mimeType` only
configure that external pipeline, so they do not otherwise appear in the state
transition.  Errors carry the loader state at the moment of failure. -/
def «_compile» (norm : String → String) (st : WebpackResourceLoader)
    (filePath : Option String) (_data : Option String) (_mimeType : Option String)
    (child : Except String ChildCompilation) :
    Except (CompileError × WebpackResourceLoader)
      (WebpackResourceLoader × CompilationOutput) :=
  if st.parentCompilation = false then
    .error (.missingParentContext, st)
  else if (filePath.map hasJsTsExtension).getD false then
    .error (.unsupportedResourceType (filePath.getD ""), st)
  else
    -- `filePath || 'angular-resource-output-${this.outputPathCounter++}.css'`
    let st :=
      match filePath with
      | some _ => st
      | none => { st with outputPathCounter := st.outputPathCounter + 1 }
    -- `childCompiler.runAsChild(...)`: the one invocation of the nested driver
    let st := { st with driverRuns := st.driverRuns + 1 }
    match child with
    | .error msg => .error (.childError msg, st)
    | .ok cc =>
        let st :=
          match filePath with
          | some fp => recordDependencies norm st fp cc.fileDependencies
          | none => st
        .ok (st,
          { content := cc.finalContent.getD ""
            map := cc.finalMap
            success := cc.errorsLength == 0 })

/-- Source: `async get(filePath)`. -/
def get (norm : String → String) (st : WebpackResourceLoader)
    (filePath : String) (child : Except String ChildCompilation) :
    Except (CompileError × WebpackResourceLoader)
      (WebpackResourceLoader × String) :=
  match findA st.cache (norm filePath) with
  | some compilationResult => .ok (st, compilationResult.content)
  | none =>
      match «_compile» norm st (some filePath) none none child with
      | .error e => .error e
      | .ok (st, compilationResult) =>
          if compilationResult.success then
            .ok ({ st with
                      cache := insertA st.cache (norm filePath) compilationResult },
                 compilationResult.content)
          else .ok (st, compilationResult.content)

/-- The whitespace characters recognised by the JavaScript specification's
`String.prototype.trim` (WhiteSpace ∪ LineTerminator code points). -/
def isJsWhitespace (c : Char) : Bool :=
  c = ' ' || c = '\t' || c = '\n' || c = '\r' ||
  c.toNat = 0xb || c.toNat = 0xc || c.toNat = 0xa0 || c.toNat = 0xfeff ||
  c.toNat = 0x1680 || (0x2000 ≤ c.toNat && c.toNat ≤ 0x200a) ||
  c.toNat = 0x2028 || c.toNat = 0x2029 || c.toNat = 0x202f ||
  c.toNat = 0x205f || c.toNat = 0x3000

/-- Model of `data.trim()`: strip leading and trailing JavaScript whitespace. -/
def jsTrim (s : String) : String :=
  ⟨((s.data.dropWhile isJsWhitespace).reverse.dropWhile isJsWhitespace).reverse⟩

/-- Source: `async process(data, mimeType)`. -/
def process (norm : String → String) (st : WebpackResourceLoader)
    (data : String) (mimeType : String)
    (child : Except String ChildCompilation) :
    Except (CompileError × WebpackResourceLoader)
      (WebpackResourceLoader × String) :=
  if (jsTrim data).length = 0 then
    .ok (st, "")
  else
    match «_compile» norm st none (some data) (some mimeType) child with
    | .error e => .error e
    | .ok (st, compilationResult) => .ok (st, compilationResult.content)

end WebpackResourceLoader

/-- The JavaScript values that can end up in `context.resource` after the
sandboxed `vm.runInNewContext` call: `undefined`, a string, an object carrying
a `default` property (itself a value; `undefined` when absent), or any other
value (number, boolean, ...). -/
inductive JsValue where
  | undefined : JsValue
  | str : String → JsValue
  | obj : JsValue → JsValue
  | other : JsValue
deriving Repr, DecidableEq

/-- The outcome of running the emitted code in the sandbox: either the script
threw, or it completed leaving some value in `context.resource`. -/
inductive EvalOutcome where
  | throws : EvalOutcome
  | value : JsValue → EvalOutcome
deriving Repr, DecidableEq

/-- Source: `private _evaluate(filename, source)`: a throwing sandbox run yields
`null`; a string-typed `context.resource` (or string-typed
`context.resource?.default`) is returned; any other shape throws
`The loader "..." didn't return a string.`  The sandbox run itself is the
oracle `outcome`. -/
def «_evaluate» (filename : String) (outcome : EvalOutcome) :
    Except String (Option String) :=
  match outcome with
  | .throws => .ok none
  | .value v =>
      match v with
      | .str s => .ok (some s)
      | .obj (.str s) => .ok (some s)
      | _ => .error ("The loader \"" ++ filename ++ "\" didn't return a string.")

/-- The loader state reached by a call, on the success and the failure path
alike. -/
def stateOf {α : Type}
    (r : Except (CompileError × WebpackResourceLoader)
          (WebpackResourceLoader × α)) : WebpackResourceLoader :=
  match r with
  | .ok (st, _) => st
  | .error (_, st) => st

/-! ## Association-list and set lemmas -/

theorem findA_eraseA {α : Type} (l : List (String × α)) (k k' : String) :
    findA (eraseA l k) k' = if k' = k then none else findA l k' := by
  induction l with
  | nil => simp [findA, eraseA]
  | cons p rest ih =>
    obtain ⟨a, v⟩ := p
    simp only [eraseA, findA]
    by_cases hak : a = k
    · simp only [if_pos hak, ih]
      by_cases h : k' = k
      · simp [h]
      · have hak' : ¬ (a = k') := fun e => h (by rw [← e]; exact hak)
        simp [h, findA, hak']
    · simp only [if_neg hak, findA]
      by_cases h : a = k'
      · have hkk : ¬ (k' = k) := fun e => hak (by rw [h, e])
        simp [h, hkk]
      · simp [h, ih]

theorem findA_insertA {α : Type} (l : List (String × α)) (k k' : String) (v : α) :
    findA (insertA l k v) k' = if k' = k then some v else findA l k' := by
  unfold insertA
  by_cases h : k = k'
  · subst h; simp [findA]
  · have h' : ¬ (k' = k) := fun hk => h hk.symm
    simp [findA, h, h', findA_eraseA]

theorem mem_insertS (s : List String) (x y : String) :
    y ∈ insertS s x ↔ y = x ∨ y ∈ s := by
  unfold insertS
  by_cases h : x ∈ s <;> simp [h]
  exact fun e => by rw [e]; exact h

theorem mem_foldl_insertS (l : List String) (s : List String) (x : String) :
    x ∈ l.foldl insertS s ↔ x ∈ l ∨ x ∈ s := by
  induction l generalizing s with
  | nil => simp
  | cons a rest ih =>
    simp only [List.foldl_cons, ih, mem_insertS, List.mem_cons]
    tauto

theorem mem_mkSet (l : List String) (x : String) : x ∈ mkSet l ↔ x ∈ l := by
  unfold mkSet
  simp [mem_foldl_insertS]

/-! ## Reverse-dependency recording lemmas -/

namespace WebpackResourceLoader

theorem mem_addReverseDependency_mono (norm : String → String)
    (fp : String) (rd : List (String × List String)) (f x k : String)
    (h : x ∈ (findA rd k).getD []) :
    x ∈ (findA (addReverseDependency norm fp rd f) k).getD [] := by
  unfold addReverseDependency
  cases hf : findA rd (norm f) with
  | none =>
    simp only [hf]
    by_cases hk : k = norm f
    · rw [hk, hf] at h; simp at h
    · simp [findA_insertA, hk, h]
  | some entry =>
    simp only [hf]
    by_cases hk : k = norm f
    · rw [hk, hf] at h; simp at h
      simp [findA_insertA, hk, mem_insertS, h]
    · simp [findA_insertA, hk, h]

theorem mem_addReverseDependency_self (norm : String → String)
    (fp : String) (rd : List (String × List String)) (f : String) :
    fp ∈ (findA (addReverseDependency norm fp rd f) (norm f)).getD [] := by
  unfold addReverseDependency
  cases hf : findA rd (norm f) with
  | none => simp [hf, findA_insertA]
  | some entry => simp [hf, findA_insertA, mem_insertS]

theorem mem_revFold_mono (norm : String → String) (fp : String)
    (deps : List String) (rd : List (String × List String)) (x k : String)
    (h : x ∈ (findA rd k).getD []) :
    x ∈ (findA (deps.foldl (addReverseDependency norm fp) rd) k).getD [] := by
  induction deps generalizing rd with
  | nil => exact h
  | cons d rest ih =>
    exact ih _ (mem_addReverseDependency_mono norm fp rd d x k h)

theorem mem_revFold_self (norm : String → String) (fp : String)
    (deps : List String) (rd : List (String × List String)) (f : String)
    (h : f ∈ deps) :
    fp ∈ (findA (deps.foldl (addReverseDependency norm fp) rd) (norm f)).getD [] := by
  induction deps generalizing rd with
  | nil => cases h
  | cons d rest ih =>
    rcases List.mem_cons.mp h with he | hm
    · subst he
      exact mem_revFold_mono norm fp rest _ fp (norm f)
        (mem_addReverseDependency_self norm fp rd f)
    · exact ih _ hm

theorem getAffectedResources_recordDependencies_of_mem
    (norm : String → String) (st : WebpackResourceLoader)
    (fp f : String) (deps : List String) (h : f ∈ deps) :
    fp ∈ (st.recordDependencies norm fp deps).getAffectedResources (norm f) := by
  unfold recordDependencies getAffectedResources
  exact mem_revFold_self norm fp deps st.reverseDependencies f h

theorem getAffectedResources_recordDependencies_mono
    (norm : String → String) (st : WebpackResourceLoader)
    (fp : String) (deps : List String) (x k : String)
    (h : x ∈ st.getAffectedResources k) :
    x ∈ (st.recordDependencies norm fp deps).getAffectedResources k := by
  unfold recordDependencies getAffectedResources
  exact mem_revFold_mono norm fp deps st.reverseDependencies x k h

theorem getResourceDependencies_recordDependencies
    (norm : String → String) (st : WebpackResourceLoader)
    (fp : String) (deps : List String) :
    (st.recordDependencies norm fp deps).getResourceDependencies fp = mkSet deps := by
  unfold recordDependencies getResourceDependencies
  simp [findA_insertA]

end WebpackResourceLoader

/-! ## Update / invalidation lemmas -/

namespace WebpackResourceLoader

theorem evictFold_frame (norm : String → String) (rs : List String)
    (st : WebpackResourceLoader) :
    (rs.foldl (evictResource norm) st).reverseDependencies = st.reverseDependencies ∧
    (rs.foldl (evictResource norm) st).fileDependencies = st.fileDependencies ∧
    (rs.foldl (evictResource norm) st).parentCompilation = st.parentCompilation ∧
    (rs.foldl (evictResource norm) st).outputPathCounter = st.outputPathCounter ∧
    (rs.foldl (evictResource norm) st).driverRuns = st.driverRuns := by
  induction rs generalizing st with
  | nil => exact ⟨rfl, rfl, rfl, rfl, rfl⟩
  | cons r rest ih =>
    simpa [evictResource] using ih (evictResource norm st r)

theorem mem_evictFold_modified (norm : String → String) (rs : List String)
    (st : WebpackResourceLoader) (x : String) :
    x ∈ (rs.foldl (evictResource norm) st).modifiedResources ↔
      x ∈ rs ∨ x ∈ st.modifiedResources := by
  induction rs generalizing st with
  | nil => simp
  | cons r rest ih =>
    simp only [List.foldl_cons, ih, List.mem_cons, evictResource, mem_insertS]
    tauto

theorem findA_evictFold_cache (norm : String → String) (rs : List String)
    (st : WebpackResourceLoader) (k : String) :
    findA (rs.foldl (evictResource norm) st).cache k =
      if rs.any (fun r => norm r == k) then none else findA st.cache k := by
  induction rs generalizing st with
  | nil => simp
  | cons r rest ih =>
    simp only [List.foldl_cons, List.any_cons, ih]
    by_cases h : norm r = k
    · by_cases h2 : rest.any (fun r => norm r == k) <;>
        simp [evictResource, findA_eraseA, h, h2]
    · have h' : ¬ (k = norm r) := fun e => h e.symm
      by_cases h2 : rest.any (fun r => norm r == k) <;>
        simp [evictResource, findA_eraseA, h, h', h2]

theorem getAffectedResources_processChangedFile (norm : String → String)
    (st : WebpackResourceLoader) (f g : String) :
    (st.processChangedFile norm f).getAffectedResources g =
      st.getAffectedResources g := by
  unfold getAffectedResources processChangedFile
  rw [(evictFold_frame norm (st.getAffectedResources f) st).1]

theorem processFold_frame (norm : String → String) (files : List String)
    (st : WebpackResourceLoader) :
    (files.foldl (processChangedFile norm) st).reverseDependencies = st.reverseDependencies ∧
    (files.foldl (processChangedFile norm) st).fileDependencies = st.fileDependencies ∧
    (files.foldl (processChangedFile norm) st).parentCompilation = st.parentCompilation ∧
    (files.foldl (processChangedFile norm) st).outputPathCounter = st.outputPathCounter ∧
    (files.foldl (processChangedFile norm) st).driverRuns = st.driverRuns := by
  induction files generalizing st with
  | nil => exact ⟨rfl, rfl, rfl, rfl, rfl⟩
  | cons f rest ih =>
    have hstep := evictFold_frame norm (st.getAffectedResources f) st
    have hrest := ih (st.processChangedFile norm f)
    unfold processChangedFile at hrest ⊢
    exact ⟨hrest.1.trans hstep.1, hrest.2.1.trans hstep.2.1,
      hrest.2.2.1.trans hstep.2.2.1, hrest.2.2.2.1.trans hstep.2.2.2.1,
      hrest.2.2.2.2.trans hstep.2.2.2.2⟩

theorem mem_processFold_modified (norm : String → String) (files : List String)
    (st : WebpackResourceLoader) (x : String) :
    x ∈ (files.foldl (processChangedFile norm) st).modifiedResources ↔
      (∃ f ∈ files, x ∈ st.getAffectedResources f) ∨ x ∈ st.modifiedResources := by
  induction files generalizing st with
  | nil => simp
  | cons f rest ih =>
    simp only [List.foldl_cons, ih, getAffectedResources_processChangedFile,
      List.exists_mem_cons_iff]
    have hmod : x ∈ (st.processChangedFile norm f).modifiedResources ↔
        x ∈ st.getAffectedResources f ∨ x ∈ st.modifiedResources := by
      unfold processChangedFile
      exact mem_evictFold_modified norm (st.getAffectedResources f) st x
    rw [hmod]
    constructor
    · rintro (hrest | hf | hm)
      · exact Or.inl (Or.inr hrest)
      · exact Or.inl (Or.inl hf)
      · exact Or.inr hm
    · rintro ((hf | hrest) | hm)
      · exact Or.inr (Or.inl hf)
      · exact Or.inl hrest
      · exact Or.inr (Or.inr hm)

theorem findA_processFold_cache (norm : String → String) (files : List String)
    (st : WebpackResourceLoader) (k : String) :
    findA (files.foldl (processChangedFile norm) st).cache k =
      if files.any
          (fun f => (st.getAffectedResources f).any (fun r => norm r == k)) then
        none
      else findA st.cache k := by
  induction files generalizing st with
  | nil => simp
  | cons f rest ih =>
    simp only [List.foldl_cons, List.any_cons, ih,
      getAffectedResources_processChangedFile]
    have hcache : findA (st.processChangedFile norm f).cache k =
        if (st.getAffectedResources f).any (fun r => norm r == k) then none
        else findA st.cache k := by
      unfold processChangedFile
      exact findA_evictFold_cache norm (st.getAffectedResources f) st k
    by_cases h : (st.getAffectedResources f).any (fun r => norm r == k) <;>
      by_cases h2 : rest.any
          (fun g => (st.getAffectedResources g).any (fun r => norm r == k)) <;>
        simp [hcache, h, h2]

end WebpackResourceLoader

/-! ## Trim lemmas -/

theorem all_dropWhile_iff (p : Char → Bool) (l : List Char) :
    (∀ x ∈ l.dropWhile p, p x) ↔ ∀ x ∈ l, p x := by
  induction l with
  | nil => simp
  | cons a rest ih =>
    by_cases h : p a
    · simp [List.dropWhile_cons, h, ih]
    · simp [List.dropWhile_cons, h]

theorem jsTrim_empty_iff (s : String) :
    (WebpackResourceLoader.jsTrim s).length = 0 ↔
      s.data.all WebpackResourceLoader.isJsWhitespace = true := by
  unfold WebpackResourceLoader.jsTrim
  simp only [String.length, List.length_eq_zero, List.reverse_eq_nil_iff,
    List.dropWhile_eq_nil_iff, List.mem_reverse, all_dropWhile_iff,
    List.all_eq_true]

/-! ## Claim theorems -/

/-- C5: calling `update` with no `changedFiles` clears the entire artifact
cache and the ModifiedResources set, while leaving both the forward and the
reverse dependency maps unchanged. -/
theorem update_full_rebuild_frame (norm : String → String)
    (st : WebpackResourceLoader) :
    (st.update norm none).cache = [] ∧
    (st.update norm none).modifiedResources = [] ∧
    (st.update norm none).fileDependencies = st.fileDependencies ∧
    (st.update norm none).reverseDependencies = st.reverseDependencies :=
  ⟨rfl, rfl, rfl, rfl⟩

/-- C10: `process` leaves the artifact cache, the forward dependency map and
the reverse dependency map unchanged, on the success path and on every failure
path alike: it writes no cache entry and, supplying no file path, never takes
the dependency-recording branch of `_compile`. -/
theorem process_frame (norm : String → String) (st : WebpackResourceLoader)
    (data mimeType : String) (child : Except String ChildCompilation) :
    (stateOf (st.process norm data mimeType child)).cache = st.cache ∧
    (stateOf (st.process norm data mimeType child)).fileDependencies =
      st.fileDependencies ∧
    (stateOf (st.process norm data mimeType child)).reverseDependencies =
      st.reverseDependencies := by
  unfold WebpackResourceLoader.process WebpackResourceLoader.«_compile» stateOf
  by_cases h : (WebpackResourceLoader.jsTrim data).length = 0
  · simp [h]
  · by_cases hpc : st.parentCompilation = false
    · simp [h, hpc]
    · cases child with
      | error msg => simp [h, hpc]
      | ok cc => simp [h, hpc]

/-- C8: when the sandboxed evaluation completes but `context.resource` is
neither a string nor an object with a string-valued `default` field,
`_evaluate` fails with the hard `didn't return a string` error, surfaced to
its caller; when the evaluation throws, `_evaluate` instead returns `null`
without propagating the exception. -/
theorem evaluate_export_shape (filename : String) :
    («_evaluate» filename .throws = .ok none) ∧
    (∀ s, «_evaluate» filename (.value (.str s)) = .ok (some s)) ∧
    (∀ s, «_evaluate» filename (.value (.obj (.str s))) = .ok (some s)) ∧
    (∀ v : JsValue, (∀ s, v ≠ .str s) → (∀ s, v ≠ .obj (.str s)) →
      «_evaluate» filename (.value v) =
        .error ("The loader \"" ++ filename ++ "\" didn't return a string.")) := by
  refine ⟨rfl, fun _ => rfl, fun _ => rfl, fun v h1 h2 => ?_⟩
  cases v with
  | undefined => rfl
  | str s => exact absurd rfl (h1 s)
  | obj d =>
    cases d with
    | undefined => rfl
    | str s => exact absurd rfl (h2 s)
    | obj e => rfl
    | other => rfl
  | other => rfl

/-- C8 witness: a number-like export shape is a hard error at a concrete
input. -/
theorem evaluate_export_shape_witness :
    «_evaluate» "out.css" (.value .other) =
      .error ("The loader \"" ++ "out.css" ++ "\" didn't return a string.") :=
  (evaluate_export_shape "out.css").2.2.2 .other
    (fun _ h => JsValue.noConfusion h) (fun _ h => JsValue.noConfusion h)

/-- C6: a file path ending in `.js` or `.ts` is rejected by `get` and
`_compile` with the unsupported-resource-type failure, with the state
unchanged and independently of the child-compilation oracle — the nested
compilation pipeline is never constructed or run. -/
theorem get_rejects_code_resources (norm : String → String)
    (st : WebpackResourceLoader) (p : String)
    (child : Except String ChildCompilation)
    (hpc : st.parentCompilation = true)
    (hext : WebpackResourceLoader.hasJsTsExtension p = true)
    (hmiss : findA st.cache (norm p) = none) :
    st.get norm p child = .error (.unsupportedResourceType p, st) ∧
    st.«_compile» norm (some p) none none child =
      .error (.unsupportedResourceType p, st) := by
  have hc : st.«_compile» norm (some p) none none child =
      .error (.unsupportedResourceType p, st) := by
    unfold WebpackResourceLoader.«_compile»
    simp [hpc, hext]
  refine ⟨?_, hc⟩
  unfold WebpackResourceLoader.get
  simp [hmiss, hc]

/-- C6 witness: `get 'foo.ts'` fails with the unsupported-resource-type
failure at a concrete state. -/
theorem get_rejects_code_resources_witness :
    (⟨true, [], [], [], [], 1, 0⟩ : WebpackResourceLoader).get id "foo.ts"
        (.error "unused") =
      .error (.unsupportedResourceType "foo.ts", ⟨true, [], [], [], [], 1, 0⟩) :=
  (get_rejects_code_resources id ⟨true, [], [], [], [], 1, 0⟩ "foo.ts"
    (.error "unused") rfl (by decide) rfl).1

/-- C9: an inline input consisting only of whitespace short-circuits `process`
to the empty string with the state untouched and without invoking the nested
compilation driver (the result is independent of the child oracle); a
non-blank inline input always invokes the driver and neither consults nor
populates the artifact cache. -/
theorem process_inline_short_circuit (norm : String → String)
    (st : WebpackResourceLoader) (data mimeType : String)
    (child : Except String ChildCompilation) :
    (data.data.all WebpackResourceLoader.isJsWhitespace = true →
      st.process norm data mimeType child = .ok (st, "")) ∧
    (data.data.all WebpackResourceLoader.isJsWhitespace = false →
      st.parentCompilation = true →
      ∀ cc, child = .ok cc →
        st.process norm data mimeType child =
          .ok ({ st with
                    outputPathCounter := st.outputPathCounter + 1
                    driverRuns := st.driverRuns + 1 },
               cc.finalContent.getD "")) := by
  constructor
  · intro hws
    have h0 : (WebpackResourceLoader.jsTrim data).length = 0 :=
      (jsTrim_empty_iff data).mpr hws
    unfold WebpackResourceLoader.process
    simp [h0]
  · intro hws hpc cc hcc
    have h0 : ¬ (WebpackResourceLoader.jsTrim data).length = 0 := by
      rw [jsTrim_empty_iff]; simp [hws]
    subst hcc
    unfold WebpackResourceLoader.process WebpackResourceLoader.«_compile»
    simp [h0, hpc]

/-- C9 witness: a blank input short-circuits and a non-blank input runs one
nested compilation, at concrete states. -/
theorem process_inline_short_circuit_witness :
    (⟨true, [], [], [], [], 1, 0⟩ : WebpackResourceLoader).process id "   "
        "text/css" (.error "unused") =
      .ok (⟨true, [], [], [], [], 1, 0⟩, "") ∧
    (⟨true, [], [], [], [], 1, 0⟩ : WebpackResourceLoader).process id "a"
        "text/css" (.ok ⟨[], 0, some "x", none⟩) =
      .ok (⟨true, [], [], [], [], 2, 1⟩, "x") :=
  ⟨(process_inline_short_circuit id ⟨true, [], [], [], [], 1, 0⟩ "   "
      "text/css" (.error "unused")).1 (by decide),
   (process_inline_short_circuit id ⟨true, [], [], [], [], 1, 0⟩ "a"
      "text/css" (.ok ⟨[], 0, some "x", none⟩)).2 (by decide) rfl
      ⟨[], 0, some "x", none⟩ rfl⟩

/-- C7: whenever `_compile` is invoked with a file path (past the sanity
checks) and the child compilation completes, the child's full reported
file-dependency set is recorded against that resource in the forward map, and
the resource is added to the reverse set of every reported file — regardless
of whether the compilation succeeded (`success` merely mirrors the child's
error count). -/
theorem compile_records_dependencies_despite_failure (norm : String → String)
    (st : WebpackResourceLoader) (fp : String)
    (data mimeType : Option String) (cc : ChildCompilation)
    (hpc : st.parentCompilation = true)
    (hext : WebpackResourceLoader.hasJsTsExtension fp = false) :
    ∃ st' out,
      st.«_compile» norm (some fp) data mimeType (.ok cc) = .ok (st', out) ∧
      st'.getResourceDependencies fp = mkSet cc.fileDependencies ∧
      (∀ f ∈ cc.fileDependencies, fp ∈ st'.getAffectedResources (norm f)) ∧
      out.success = (cc.errorsLength == 0) := by
  refine ⟨{ st with driverRuns := st.driverRuns + 1
              }.recordDependencies norm fp cc.fileDependencies,
    { content := cc.finalContent.getD ""
      map := cc.finalMap
      success := cc.errorsLength == 0 }, ?_, ?_, ?_, rfl⟩
  · unfold WebpackResourceLoader.«_compile»
    simp [hpc, hext]
  · exact WebpackResourceLoader.getResourceDependencies_recordDependencies
      norm _ fp cc.fileDependencies
  · intro f hf
    exact WebpackResourceLoader.getAffectedResources_recordDependencies_of_mem
      norm _ fp f cc.fileDependencies hf

/-- C7 witness: a failing child compilation (one error) still records the
dependency edges in both maps. -/
theorem compile_records_dependencies_despite_failure_witness :
    ∃ st' out,
      (⟨true, [], [], [], [], 1, 0⟩ : WebpackResourceLoader).«_compile» id
          (some "button.scss") none none (.ok ⟨["vars.scss"], 1, none, none⟩) =
        .ok (st', out) ∧
      st'.getResourceDependencies "button.scss" = mkSet ["vars.scss"] ∧
      (∀ f ∈ ["vars.scss"], "button.scss" ∈ st'.getAffectedResources (id f)) ∧
      out.success = ((1 : Nat) == 0) :=
  compile_records_dependencies_despite_failure id ⟨true, [], [], [], [], 1, 0⟩
    "button.scss" none none ⟨["vars.scss"], 1, none, none⟩ rfl (by decide)

/-- Helper: a cache hit returns the cached content and does not change the
state. -/
theorem get_hit (norm : String → String) (st : WebpackResourceLoader)
    (R : String) (child : Except String ChildCompilation)
    (out : CompilationOutput) (h : findA st.cache (norm R) = some out) :
    st.get norm R child = .ok (st, out.content) := by
  unfold WebpackResourceLoader.get
  simp [h]

/-- Helper: `_compile` without a bound parent compilation throws. -/
theorem compile_missing_parent (norm : String → String)
    (st : WebpackResourceLoader) (filePath data mimeType : Option String)
    (child : Except String ChildCompilation)
    (hpc : st.parentCompilation = false) :
    st.«_compile» norm filePath data mimeType child =
      .error (.missingParentContext, st) := by
  unfold WebpackResourceLoader.«_compile»
  simp [hpc]

/-- Helper: `_compile` for a `.js`/`.ts` path rejects up front. -/
theorem compile_unsupported (norm : String → String)
    (st : WebpackResourceLoader) (fp : String) (data mimeType : Option String)
    (child : Except String ChildCompilation)
    (hpc : st.parentCompilation = true)
    (hext : WebpackResourceLoader.hasJsTsExtension fp = true) :
    st.«_compile» norm (some fp) data mimeType child =
      .error (.unsupportedResourceType fp, st) := by
  unfold WebpackResourceLoader.«_compile»
  simp [hpc, hext]

/-- Helper: a failing `runAsChild` rejects after the driver has run. -/
theorem compile_some_child_error (norm : String → String)
    (st : WebpackResourceLoader) (fp : String) (data mimeType : Option String)
    (msg : String) (hpc : st.parentCompilation = true)
    (hext : WebpackResourceLoader.hasJsTsExtension fp = false) :
    st.«_compile» norm (some fp) data mimeType (.error msg) =
      .error (.childError msg, { st with driverRuns := st.driverRuns + 1 }) := by
  unfold WebpackResourceLoader.«_compile»
  simp [hpc, hext]

/-- Helper: a completed file-backed `_compile` records dependencies and
returns the captured output. -/
theorem compile_some_ok (norm : String → String)
    (st : WebpackResourceLoader) (fp : String) (data mimeType : Option String)
    (cc : ChildCompilation) (hpc : st.parentCompilation = true)
    (hext : WebpackResourceLoader.hasJsTsExtension fp = false) :
    st.«_compile» norm (some fp) data mimeType (.ok cc) =
      .ok (({ st with driverRuns := st.driverRuns + 1
               }).recordDependencies norm fp cc.fileDependencies,
           { content := cc.finalContent.getD ""
             map := cc.finalMap
             success := cc.errorsLength == 0 }) := by
  unfold WebpackResourceLoader.«_compile»
  simp [hpc, hext]

/-- Helper: a cache miss with a failing `_compile` propagates the failure. -/
theorem get_compile_error (norm : String → String)
    (st : WebpackResourceLoader) (R : String)
    (child : Except String ChildCompilation)
    (e : CompileError × WebpackResourceLoader)
    (hmiss : findA st.cache (norm R) = none)
    (h : st.«_compile» norm (some R) none none child = .error e) :
    st.get norm R child = .error e := by
  unfold WebpackResourceLoader.get
  simp [hmiss, h]

/-- Helper: a cache miss whose compilation succeeds caches the output. -/
theorem get_miss_success (norm : String → String)
    (st : WebpackResourceLoader) (R : String) (cc : ChildCompilation)
    (hpc : st.parentCompilation = true)
    (hext : WebpackResourceLoader.hasJsTsExtension R = false)
    (hmiss : findA st.cache (norm R) = none)
    (hz : cc.errorsLength = 0) :
    st.get norm R (.ok cc) =
      .ok (let stC := ({ st with driverRuns := st.driverRuns + 1
                          }).recordDependencies norm R cc.fileDependencies
           let out : CompilationOutput :=
             { content := cc.finalContent.getD ""
               map := cc.finalMap
               success := cc.errorsLength == 0 }
           ({ stC with cache := insertA stC.cache (norm R) out },
            cc.finalContent.getD "")) := by
  unfold WebpackResourceLoader.get
  rw [hmiss]
  simp only [compile_some_ok norm st R none none cc hpc hext]
  simp [hz]

/-- Helper: a cache miss whose compilation fails caches nothing. -/
theorem get_miss_failure (norm : String → String)
    (st : WebpackResourceLoader) (R : String) (cc : ChildCompilation)
    (hpc : st.parentCompilation = true)
    (hext : WebpackResourceLoader.hasJsTsExtension R = false)
    (hmiss : findA st.cache (norm R) = none)
    (hz : cc.errorsLength ≠ 0) :
    st.get norm R (.ok cc) =
      .ok (({ st with driverRuns := st.driverRuns + 1
               }).recordDependencies norm R cc.fileDependencies,
           cc.finalContent.getD "") := by
  unfold WebpackResourceLoader.get
  rw [hmiss]
  simp only [compile_some_ok norm st R none none cc hpc hext]
  simp [hz]

/-- C3: if a first `get R` returns content `c1` and any compilation it ran was
successful, a second `get R` with no intervening `update` returns the same
state and the same content for every child oracle — in particular it does not
invoke the nested compilation driver (the oracle is irrelevant and
`driverRuns` is unchanged). -/
theorem get_cache_hit_idempotent (norm : String → String)
    (st : WebpackResourceLoader) (R : String)
    (child1 : Except String ChildCompilation)
    (st1 : WebpackResourceLoader) (c1 : String)
    (h1 : st.get norm R child1 = .ok (st1, c1))
    (hsucc : ∀ cc, child1 = .ok cc → cc.errorsLength = 0) :
    ∀ child2, st1.get norm R child2 = .ok (st1, c1) := by
  intro child2
  cases hcache : findA st.cache (norm R) with
  | some out =>
    rw [get_hit norm st R child1 out hcache] at h1
    simp only [Except.ok.injEq, Prod.mk.injEq] at h1
    obtain ⟨hst, hc⟩ := h1
    subst hst; subst hc
    exact get_hit norm st R child2 out hcache
  | none =>
    by_cases hpc : st.parentCompilation = true
    case neg =>
      have hpcf : st.parentCompilation = false := by
        revert hpc; cases st.parentCompilation <;> simp
      rw [get_compile_error norm st R child1 _ hcache
        (compile_missing_parent norm st (some R) none none child1 hpcf)] at h1
      exact Except.noConfusion h1
    case pos =>
      by_cases hext : WebpackResourceLoader.hasJsTsExtension R = true
      · rw [get_compile_error norm st R child1 _ hcache
          (compile_unsupported norm st R none none child1 hpc hext)] at h1
        exact Except.noConfusion h1
      · have hextf : WebpackResourceLoader.hasJsTsExtension R = false := by
          revert hext; cases WebpackResourceLoader.hasJsTsExtension R <;> simp
        cases child1 with
        | error msg =>
          rw [get_compile_error norm st R (.error msg) _ hcache
            (compile_some_child_error norm st R none none msg hpc hextf)] at h1
          exact Except.noConfusion h1
        | ok cc =>
          have hz : cc.errorsLength = 0 := hsucc cc rfl
          rw [get_miss_success norm st R cc hpc hextf hcache hz] at h1
          simp only [Except.ok.injEq, Prod.mk.injEq] at h1
          obtain ⟨hst, hc⟩ := h1
          subst hst; subst hc
          exact get_hit norm _ R child2
            { content := cc.finalContent.getD ""
              map := cc.finalMap
              success := cc.errorsLength == 0 }
            (by simp [findA_insertA])

/-- C3 witness: a concrete cache hit is returned unchanged without consulting
the child oracle. -/
theorem get_cache_hit_idempotent_witness :
    (⟨true, [], [], [("a.css", ⟨"body", none, true⟩)], [], 1, 0⟩ :
        WebpackResourceLoader).get id "a.css" (.error "unused") =
      .ok (⟨true, [], [], [("a.css", ⟨"body", none, true⟩)], [], 1, 0⟩, "body") :=
  get_cache_hit_idempotent id
    ⟨true, [], [], [("a.css", ⟨"body", none, true⟩)], [], 1, 0⟩ "a.css"
    (.ok ⟨[], 0, none, none⟩)
    ⟨true, [], [], [("a.css", ⟨"body", none, true⟩)], [], 1, 0⟩ "body" rfl
    (fun cc h => by injection h with h2; rw [← h2]) (.error "unused")

/-- C4: a compile returning `success:false` writes no cache entry for its key,
and a subsequent `get` for the same key runs the nested compilation driver
again (one more driver run) and returns that fresh compilation's content. -/
theorem get_failure_not_cached (norm : String → String)
    (st : WebpackResourceLoader) (K : String) (cc : ChildCompilation)
    (hpc : st.parentCompilation = true)
    (hext : WebpackResourceLoader.hasJsTsExtension K = false)
    (hmiss : findA st.cache (norm K) = none)
    (hfail : cc.errorsLength ≠ 0) :
    ∃ st1, st.get norm K (.ok cc) = .ok (st1, cc.finalContent.getD "") ∧
      findA st1.cache (norm K) = none ∧
      ∀ cc2, cc2.errorsLength = 0 →
        ∃ st2, st1.get norm K (.ok cc2) = .ok (st2, cc2.finalContent.getD "") ∧
          st2.driverRuns = st1.driverRuns + 1 := by
  refine ⟨({ st with driverRuns := st.driverRuns + 1
              }).recordDependencies norm K cc.fileDependencies,
    get_miss_failure norm st K cc hpc hext hmiss hfail, hmiss, ?_⟩
  intro cc2 hz
  exact ⟨_, get_miss_success norm _ K cc2 hpc hext hmiss hz, rfl⟩

/-- C4 witness: a failing compile at a concrete state caches nothing and the
next `get` compiles again. -/
theorem get_failure_not_cached_witness :
    ∃ st1, (⟨true, [], [], [], [], 1, 0⟩ : WebpackResourceLoader).get id
        "a.css" (.ok ⟨["d"], 1, some "broken", none⟩) = .ok (st1, "broken") ∧
      findA st1.cache (id "a.css") = none ∧
      ∀ cc2, cc2.errorsLength = 0 →
        ∃ st2, st1.get id "a.css" (.ok cc2) =
            .ok (st2, cc2.finalContent.getD "") ∧
          st2.driverRuns = st1.driverRuns + 1 :=
  get_failure_not_cached id ⟨true, [], [], [], [], 1, 0⟩ "a.css"
    ⟨["d"], 1, some "broken", none⟩ rfl (by decide) rfl (by decide)

/-- C1 counterexample: after recording dependencies {A, B} for resource R and
then re-recording {B, C}, the code leaves R in the reverse set of A even
though A is no longer in R's forward set — there is no stale-edge cleanup, so
`getDependents(A)` still contains R and the bidirectional iff invariant fails
at (R, A). -/
theorem recordDependencies_stale_edge_counterexample :
    "R" ∈ ((WebpackResourceLoader.init.recordDependencies id "R" ["A", "B"]
            ).recordDependencies id "R" ["B", "C"]).getAffectedResources "A" ∧
    "A" ∉ ((WebpackResourceLoader.init.recordDependencies id "R" ["A", "B"]
            ).recordDependencies id "R" ["B", "C"]).getResourceDependencies "R" := by
  decide

/-- C1 amended: recording dependencies keeps one direction of the invariant —
every file in the newly recorded forward set of R has R in the reverse set of
its normalized path — but stale reverse edges are never removed: after
`recordDependencies(R, [A, B])` then `recordDependencies(R, [B, C])`,
`getDependents` still contains R for A as well as for B and C, while the
forward set of R is exactly {B, C}. -/
theorem recordDependencies_forward_consistency (norm : String → String)
    (st : WebpackResourceLoader) (R A B C : String) :
    (∀ (deps : List String) (f : String), f ∈ deps →
        f ∈ (st.recordDependencies norm R deps).getResourceDependencies R ∧
        R ∈ (st.recordDependencies norm R deps).getAffectedResources (norm f)) ∧
    (R ∈ ((st.recordDependencies norm R [A, B]).recordDependencies norm R
            [B, C]).getAffectedResources (norm A) ∧
     R ∈ ((st.recordDependencies norm R [A, B]).recordDependencies norm R
            [B, C]).getAffectedResources (norm B) ∧
     R ∈ ((st.recordDependencies norm R [A, B]).recordDependencies norm R
            [B, C]).getAffectedResources (norm C) ∧
     ((st.recordDependencies norm R [A, B]).recordDependencies norm R
            [B, C]).getResourceDependencies R = mkSet [B, C]) := by
  constructor
  · intro deps f hf
    constructor
    · rw [WebpackResourceLoader.getResourceDependencies_recordDependencies]
      exact (mem_mkSet deps f).mpr hf
    · exact WebpackResourceLoader.getAffectedResources_recordDependencies_of_mem
        norm st R f deps hf
  · refine ⟨?_, ?_, ?_,
      WebpackResourceLoader.getResourceDependencies_recordDependencies norm _ R [B, C]⟩
    · exact WebpackResourceLoader.getAffectedResources_recordDependencies_mono
        norm _ R [B, C] R (norm A)
        (WebpackResourceLoader.getAffectedResources_recordDependencies_of_mem
          norm st R A [A, B] (by simp))
    · exact WebpackResourceLoader.getAffectedResources_recordDependencies_of_mem
        norm _ R B [B, C] (by simp)
    · exact WebpackResourceLoader.getAffectedResources_recordDependencies_of_mem
        norm _ R C [B, C] (by simp)

/-- C1 amended witness: a concrete file in a recorded dependency set is in the
forward set and its resource is in its reverse set. -/
theorem recordDependencies_forward_consistency_witness :
    "a" ∈ ((⟨false, [], [], [], [], 1, 0⟩ : WebpackResourceLoader
            ).recordDependencies id "R" ["a", "b"]).getResourceDependencies "R" ∧
    "R" ∈ ((⟨false, [], [], [], [], 1, 0⟩ : WebpackResourceLoader
            ).recordDependencies id "R" ["a", "b"]).getAffectedResources (id "a") :=
  (recordDependencies_forward_consistency id ⟨false, [], [], [], [], 1, 0⟩
    "R" "x" "y" "z").1 ["a", "b"] "a" (by decide)

/-- C2: an incremental `update` with a set of changed files first clears the
ModifiedResources set and then, for every changed file, evicts each of its
dependent resources (per the reverse dependency map) from the artifact cache
under the resource's normalized key and adds it to ModifiedResources;
`getModifiedResourceFiles` afterwards holds exactly the dependents of the
changed files, every such resource is absent from the cache, all other cache
entries survive, and changed files with no recorded dependents evict nothing
and are not an error. -/
theorem update_incremental_eviction (norm : String → String)
    (st : WebpackResourceLoader) (files : List String) :
    (∀ r, r ∈ (st.update norm (some files)).getModifiedResourceFiles ↔
        ∃ f ∈ files, r ∈ st.getAffectedResources f) ∧
    (∀ r ∈ (st.update norm (some files)).getModifiedResourceFiles,
        findA (st.update norm (some files)).cache (norm r) = none) ∧
    (∀ k, findA (st.update norm (some files)).cache k =
        if files.any
            (fun f => (st.getAffectedResources f).any (fun r => norm r == k))
          then none
          else findA st.cache k) ∧
    ((∀ f ∈ files, st.getAffectedResources f = []) →
        (st.update norm (some files)).cache = st.cache ∧
        (st.update norm (some files)).getModifiedResourceFiles = []) := by
  have haff : ∀ f, ({ st with parentCompilation := true, modifiedResources := [] } : WebpackResourceLoader).getAffectedResources f =
      st.getAffectedResources f := fun _ => rfl
  have h1 : ∀ r, r ∈ (st.update norm (some files)).getModifiedResourceFiles ↔
      ∃ f ∈ files, r ∈ st.getAffectedResources f := by
    intro r
    show r ∈ (files.foldl (WebpackResourceLoader.processChangedFile norm)
        { st with parentCompilation := true, modifiedResources := [] }).modifiedResources ↔ _
    rw [WebpackResourceLoader.mem_processFold_modified]
    simp [haff]
  have h3 : ∀ k, findA (st.update norm (some files)).cache k =
      if files.any
          (fun f => (st.getAffectedResources f).any (fun r => norm r == k))
        then none
        else findA st.cache k := by
    intro k
    show findA (files.foldl (WebpackResourceLoader.processChangedFile norm)
        { st with parentCompilation := true, modifiedResources := [] }).cache k = _
    rw [WebpackResourceLoader.findA_processFold_cache]
    rfl
  refine ⟨h1, ?_, h3, ?_⟩
  · intro r hr
    obtain ⟨f, hf, hrf⟩ := (h1 r).mp hr
    rw [h3 (norm r)]
    have hany : files.any
        (fun g => (st.getAffectedResources g).any (fun x => norm x == norm r)) =
        true := by
      rw [List.any_eq_true]
      refine ⟨f, hf, ?_⟩
      rw [List.any_eq_true]
      exact ⟨r, hrf, by simp⟩
    rw [if_pos hany]
  · intro hnone
    have key : ∀ fs : List String, (∀ f ∈ fs, st.getAffectedResources f = []) →
        fs.foldl (WebpackResourceLoader.processChangedFile norm)
          { st with parentCompilation := true, modifiedResources := [] } =
        { st with parentCompilation := true, modifiedResources := [] } := by
      intro fs
      induction fs with
      | nil => intro _; rfl
      | cons f rest ih =>
        intro hf
        have hemp : ({ st with parentCompilation := true, modifiedResources := [] } : WebpackResourceLoader
            ).getAffectedResources f = [] := hf f (by simp)
        have hstep : WebpackResourceLoader.processChangedFile norm
            { st with parentCompilation := true, modifiedResources := [] } f =
            { st with parentCompilation := true, modifiedResources := [] } := by
          unfold WebpackResourceLoader.processChangedFile
          rw [hemp]
          rfl
        simp only [List.foldl_cons, hstep]
        exact ih (fun g hg => hf g (List.mem_cons_of_mem f hg))
    constructor
    · show (files.foldl (WebpackResourceLoader.processChangedFile norm)
          { st with parentCompilation := true, modifiedResources := [] }).cache = st.cache
      rw [key files hnone]
    · show (files.foldl (WebpackResourceLoader.processChangedFile norm)
          { st with parentCompilation := true, modifiedResources := [] }).modifiedResources = []
      rw [key files hnone]

/-- C2 witness: with R recorded as a dependent of A, updating with changed
files [A, Z] (Z having no dependents) marks R modified and evicts exactly R's
cache entry. -/
theorem update_incremental_eviction_witness :
    "R" ∈ ((⟨false, [], [("A", ["R"])], [("R", ⟨"css", none, true⟩)],
        ["old"], 1, 0⟩ : WebpackResourceLoader).update id
          (some ["A", "Z"])).getModifiedResourceFiles ∧
    findA ((⟨false, [], [("A", ["R"])], [("R", ⟨"css", none, true⟩)],
        ["old"], 1, 0⟩ : WebpackResourceLoader).update id
          (some ["A", "Z"])).cache (id "R") = none :=
  ⟨((update_incremental_eviction id
      ⟨false, [], [("A", ["R"])], [("R", ⟨"css", none, true⟩)], ["old"], 1, 0⟩
      ["A", "Z"]).1 "R").mpr ⟨"A", by decide, by decide⟩,
   (update_incremental_eviction id
      ⟨false, [], [("A", ["R"])], [("R", ⟨"css", none, true⟩)], ["old"], 1, 0⟩
      ["A", "Z"]).2.1 "R"
      (((update_incremental_eviction id
        ⟨false, [], [("A", ["R"])], [("R", ⟨"css", none, true⟩)], ["old"], 1, 0⟩
        ["A", "Z"]).1 "R").mpr ⟨"A", by decide, by decide⟩)⟩
